import Mathlib

/-!
Verification of the pix benchmarking subsystem against its design document.

The definitions below are shallow embeddings of the C sources of the
repository (api-perf command-line driver, generated-benchmark polling loops,
measurement-loop templates, and the embedded ir-perf driver), together with a
few functions modelled from the design document where the implementing script
is not part of the source tree (the latency-analysis script and the
template/snippet merge script).  Machine integers are modelled as `Nat` with
explicit reductions modulo `2 ^ 32` / `2 ^ 64` where the C code casts.
-/

namespace PixBench

/-- One line of a generated benchmark's standard output, as constrained by the
stdout contract: either a `Total cycles: <N>` line, a `metadata:` line, or any
other diagnostic text. -/
inductive OutputLine where
  | totalCycles (n : Nat)
  | metadata (s : String)
  | other (s : String)
  deriving DecidableEq

def isTotalCyclesLine : OutputLine → Bool
  | .totalCycles _ => true
  | _ => false

def isMetadataLine : OutputLine → Bool
  | .metadata _ => true
  | _ => false

/-! ## Model of C `strtoul` / `strtoull` (base 10)

`strtoul` skips leading whitespace, accepts an optional sign, converts the
longest prefix of decimal digits (clamping to `ULONG_MAX` on overflow) and, if
a minus sign was present, negates the converted value in the unsigned return
type.  On both platforms of interest `unsigned long` and
`unsigned long long` are 64-bit, so one model serves `strtoul` and
`strtoull`. -/

def ulongMax : Nat := 2 ^ 64 - 1

def decDigitsValue (cs : List Char) : Nat :=
  cs.foldl (fun acc c => acc * 10 + (c.toNat - '0'.toNat)) 0

/-- `strtoul(s, NULL, 10)` on a 64-bit platform, as a value in `[0, 2^64)`. -/
def strtoul10 (s : String) : Nat :=
  let cs := s.toList.dropWhile Char.isWhitespace
  let (neg, cs) :=
    match cs with
    | '-' :: rest => (true, rest)
    | '+' :: rest => (false, rest)
    | _ => (false, cs)
  let conv := min (decDigitsValue (cs.takeWhile Char.isDigit)) ulongMax
  if neg then (2 ^ 64 - conv) % 2 ^ 64 else conv

/-- `atol(s)` (= `strtol(s, NULL, 10)`) on a 64-bit platform: the converted
value clamped to the range of `long`. -/
def atolModel (s : String) : Int :=
  let cs := s.toList.dropWhile Char.isWhitespace
  let (neg, cs) :=
    match cs with
    | '-' :: rest => (true, rest)
    | '+' :: rest => (false, rest)
    | _ => (false, cs)
  let conv : Int := (decDigitsValue (cs.takeWhile Char.isDigit) : Int)
  if neg then max (-conv) (-(2 ^ 63)) else min conv (2 ^ 63 - 1)

/-! ## api-perf command-line driver (`src/api-perf/driver/benchmark_driver.c`)

`parse_command_line_args` locates the first `--` among `argv[1..]`, scans the
tokens before it for `-b`, `-i` and `-p` (each with a range check that falls
back to the built-in default), and hands the tokens after it — unchanged — to
`rte_eal_init`.  Without a separator, all of `argv` goes to `rte_eal_init`
and all of `argv[1..]` is scanned for benchmark flags. -/

/-- The three driver globals with their initializers
(`g_burst_size = 32`, `g_iterations = 1000000`, `g_payload_size = 64`). -/
structure DriverParams where
  burst : Nat
  iterations : Nat
  payload : Nat
  deriving DecidableEq

def initialDriverParams : DriverParams :=
  { burst := 32, iterations := 1000000, payload := 64 }

/-- Split an argument list at the first `--` token: `some (pre, post)` when a
separator exists, `none` otherwise. -/
def splitFirstSep : List String → Option (List String × List String)
  | [] => none
  | a :: rest =>
      if a = "--" then some ([], rest)
      else (splitFirstSep rest).map (fun pq => (a :: pq.1, pq.2))

/-- The `-b` assignment: `g_burst_size = (unsigned int)strtoul(v)`, replaced
by the default 32 when zero or above 65535. -/
def validatedBurst (raw : Nat) : Nat :=
  let v := raw % 2 ^ 32
  if v = 0 ∨ 65535 < v then 32 else v

/-- The `-i` assignment: `g_iterations = strtoull(v)`, replaced by the default
1000000 when zero. -/
def validatedIterations (raw : Nat) : Nat :=
  if raw = 0 then 1000000 else raw

/-- The `-p` assignment: `g_payload_size = (unsigned int)strtoul(v)`, replaced
by the default 64 when below 8. -/
def validatedPayload (raw : Nat) : Nat :=
  let v := raw % 2 ^ 32
  if v < 8 then 64 else v

/-- The scan over the benchmark-argument region (tokens before the `--`
separator, or all of `argv[1..]` when there is none).  A flag whose value
token would fall outside the region is ignored, exactly as the
`i + 1 < benchmark_argc` guards do. -/
def scanBenchFlags : List String → DriverParams → DriverParams
  | [], p => p
  | [_], p => p
  | a :: v :: rest, p =>
      if a = "-b" then
        scanBenchFlags rest { p with burst := validatedBurst (strtoul10 v) }
      else if a = "-i" then
        scanBenchFlags rest { p with iterations := validatedIterations (strtoul10 v) }
      else if a = "-p" then
        scanBenchFlags rest { p with payload := validatedPayload (strtoul10 v) }
      else
        scanBenchFlags (v :: rest) p

/-- `parse_command_line_args`: returns the driver globals after parsing and
the argument vector handed to `rte_eal_init`.  `argv0` is `argv[0]`, `args`
is `argv[1..]`. -/
def parseCommandLineArgs (argv0 : String) (args : List String) :
    DriverParams × List String :=
  match splitFirstSep args with
  | some (pre, post) => (scanBenchFlags pre initialDriverParams, post)
  | none => (scanBenchFlags args initialDriverParams, argv0 :: args)

/-! ## Embedded ir-perf driver (driver embedded in `ir-perf` snippet bundles)

This variant keeps a fixed-capacity store `g_params` of `MAX_PARAMS = 16`
key/value pairs (`char key[32]`, `char value[128]`, both `strncpy`-truncated
to one less than the array size).  Its argument convention is the reverse of
the api-perf driver: `rte_eal_init` receives `argv[0..sep)` (everything
before the first `--`, or all of `argv` when there is none) while the tokens
after the separator are scanned for `--<key> <value>` pairs and `-i`. -/

def maxParams : Nat := 16

/-- `strncpy(dst, src, n)` into a zero-initialized `char[n+1]` array: the
stored string is the first `n` characters of `src`. -/
def truncTo (n : Nat) (s : String) : String :=
  String.mk (s.toList.take n)

/-- `strncmp(s, "--", 2) == 0`: the token starts with two dashes. -/
def startsWithDashDash (s : String) : Bool :=
  match s.toList with
  | '-' :: '-' :: _ => true
  | _ => false

/-- The key part of a `--<key>` token: the token with its first two
characters removed (`argv[i] + 2`). -/
def dropDashDash (s : String) : String :=
  String.mk (s.toList.drop 2)

/-- The embedded driver's mutable state: the `g_params` store (in insertion
order) and `g_iterations` (initialized to 1000000). -/
structure EmbeddedState where
  params : List (String × String)
  iterations : Nat
  deriving DecidableEq

def initialEmbeddedState : EmbeddedState :=
  { params := [], iterations := 1000000 }

/-- `get_benchmark_param`: linear scan of `g_params`, first matching key
wins; `NULL` (here `none`) when the key was never stored. -/
def getBenchmarkParam (ps : List (String × String)) (key : String) :
    Option String :=
  (ps.find? (fun kv => kv.1 = key)).map (fun kv => kv.2)

/-- The embedded driver's scan over the benchmark-argument region.  A token
starting with `--` and followed by a value is stored as a key/value pair —
but only while fewer than `MAX_PARAMS` pairs are stored; the value token is
skipped either way.  `-i` with a value sets `g_iterations` with the zero
fallback.  Flags whose value token would fall past the end are ignored. -/
def scanEmbeddedFlags : List String → EmbeddedState → EmbeddedState
  | [], st => st
  | [_], st => st
  | a :: v :: rest, st =>
      if startsWithDashDash a then
        let st :=
          if st.params.length < maxParams then
            { st with
              params := st.params ++ [(truncTo 31 (dropDashDash a), truncTo 127 v)] }
          else st
        scanEmbeddedFlags rest st
      else if a = "-i" then
        scanEmbeddedFlags rest
          { st with iterations := validatedIterations (strtoul10 v) }
      else
        scanEmbeddedFlags (v :: rest) st

/-- The embedded driver's `parse_command_line_args`: returns the final state
and the argument vector handed to `rte_eal_init`.  `argv0` is `argv[0]`,
`args` is `argv[1..]`. -/
def parseEmbeddedArgs (argv0 : String) (args : List String) :
    EmbeddedState × List String :=
  match splitFirstSep args with
  | some (pre, post) => (scanEmbeddedFlags post initialEmbeddedState, argv0 :: pre)
  | none => (initialEmbeddedState, argv0 :: args)

/-! ## Snippet parameter reads

`rte_cryptodev_enqueue_dequeue_burst_encrypt/call.c` guards the
`get_benchmark_param` result before calling `strtoul`, defaulting to 32;
the `alloc_bulk` setup snippet does not. -/

/-- The guarded read in the encrypt call snippet:
`burst_size_str ? strtoul(burst_size_str) : 32`. -/
def encryptBurstSize (ps : List (String × String)) : Nat :=
  match getBenchmarkParam ps "burst_size" with
  | some s => strtoul10 s % 2 ^ 32
  | none => 32

/-- The unguarded read in the `alloc_bulk` setup snippet:
`strtoul(get_benchmark_param("burst_size"), NULL, 10)`.  When the parameter
is absent, `get_benchmark_param` returns `NULL` and the `NULL` pointer is
dereferenced by `strtoul` — undefined behavior (a crash), modelled as
`none`. -/
def allocBulkBurstSize (ps : List (String × String)) : Option Nat :=
  (getBenchmarkParam ps "burst_size").map (fun s => strtoul10 s % 2 ^ 32)

/-! ## Polling loops of the asynchronous burst benchmarks

A run of either polling loop is driven by the device's behavior, given as a
trace of dequeue attempts: each element is `(duration, offered)` — the cycles
the attempt takes and the number of completions the device hands back (the
loop takes at most the outstanding remainder).  The clock starts at
`poll_start = 0`.

Cryptodev wait variant: `poll_end` is re-read **only after an attempt that
dequeued zero**, and the loop breaks at the first attempt that dequeued
anything, so `poll_cycles = poll_end - poll_start` covers exactly the
zero-completion attempts.

Compressdev variant (`rte_compressdev_enqueue_dequeue_burst_decompress/call.c`):
`poll_end` is read once **after the loop exits**, so `poll_cycles` covers the
whole loop, successful attempts included; the loop has no break and exits
only once everything outstanding was dequeued. -/

/-- Outcome of one polling-loop execution followed by the
`enqueued != total_dequeued` validation. -/
inductive PollOutcome where
  | ok (totalDequeued pollCycles : Nat)
  | fatalMismatch (enqueued totalDequeued : Nat)
  deriving DecidableEq

/-- The cryptodev wait-variant loop body: returns
`some (total_dequeued, poll_cycles)` when the loop exits within the trace,
`none` when the trace is exhausted with completions still outstanding (the
real loop would keep polling). -/
def cryptoWaitLoop (enq : Nat) :
    List (Nat × Nat) → Nat → Nat → Nat → Option (Nat × Nat)
  | [], total, _, pollEnd =>
      if total < enq then none else some (total, pollEnd)
  | (dur, offered) :: rest, total, clock, pollEnd =>
      if total < enq then
        if 0 < offered then
          some (total + min offered (enq - total), pollEnd)
        else
          cryptoWaitLoop enq rest total (clock + dur) (clock + dur)
      else some (total, pollEnd)

/-- The cryptodev wait-variant call snippet: poll loop followed by the
mismatch validation (`rte_exit` on `enqueued != total_dequeued`). -/
def cryptoWaitRun (enq : Nat) (attempts : List (Nat × Nat)) :
    Option PollOutcome :=
  (cryptoWaitLoop enq attempts 0 0 0).map fun tp =>
    if enq = tp.1 then .ok tp.1 tp.2 else .fatalMismatch enq tp.1

/-- The compressdev decompress loop body: accumulates until nothing is
outstanding; the clock value at loop exit is `poll_end`, so the whole loop
duration becomes `poll_cycles`. -/
def compressPollLoop (enq : Nat) :
    List (Nat × Nat) → Nat → Nat → Option (Nat × Nat)
  | [], total, clock =>
      if total < enq then none else some (total, clock)
  | (dur, offered) :: rest, total, clock =>
      if total < enq then
        compressPollLoop enq rest (total + min offered (enq - total)) (clock + dur)
      else some (total, clock)

/-- The compressdev decompress call snippet: poll loop followed by the same
mismatch validation. -/
def compressPollRun (enq : Nat) (attempts : List (Nat × Nat)) :
    Option PollOutcome :=
  (compressPollLoop enq attempts 0 0).map fun tp =>
    if enq = tp.1 then .ok tp.1 tp.2 else .fatalMismatch enq tp.1

/-- The cycles spent in attempts that returned zero completions — what the
design document says `total_poll_cycles` accumulates. -/
def zeroAttemptCycles (attempts : List (Nat × Nat)) : Nat :=
  ((attempts.filter (fun a => a.2 = 0)).map (fun a => a.1)).sum

/-- The plain `rte_cryptodev_enqueue_dequeue_burst_encrypt` call snippet: one
enqueue burst and one dequeue burst, both return values discarded, no
validation and no error path of any kind.  `hwEnqueued` / `hwDequeued` are
the counts the device actually accepted and returned; the returned list is
the (empty) list of error events the snippet raises. -/
structure EncryptCallResult where
  burst : Nat
  enqueued : Nat
  dequeued : Nat
  fatalEvents : List String
  deriving DecidableEq

def encryptBurstCall (ps : List (String × String)) (hwEnqueued hwDequeued : Nat) :
    EncryptCallResult :=
  let burst := encryptBurstSize ps
  { burst := burst
    enqueued := min hwEnqueued burst
    dequeued := min hwDequeued burst
    fatalEvents := [] }

/-! ## Polling-template measurement loop
(`src/api-perf/benchmarks/compressdev/template.c`, `run_benchmark`; the
regexdev template in the source tree is identical in this respect)

`run_benchmark` resets `total_poll_cycles` to 0, reads `rte_rdtsc()` before
and after the iteration loop, and prints
`Total cycles: end - start - total_poll_cycles`.  Each iteration's elapsed
cycles decompose into the cycles it contributed to `total_poll_cycles`
(snippet poll additions plus the template's own timed `rte_pause`) and the
rest, attributed to the operation. -/

/-- One iteration of a polling benchmark's measurement loop: `compute` is the
portion of its elapsed cycles *not* added to `total_poll_cycles`, `poll` the
portion added to it. -/
structure IterTrace where
  compute : Nat
  poll : Nat
  deriving DecidableEq

/-- `end - start` of the measurement loop. -/
def elapsedCycles (its : List IterTrace) : Nat :=
  (its.map (fun it => it.compute + it.poll)).sum

/-- The value of `total_poll_cycles` at the end of the run (reset to 0 at the
start of `run_benchmark`). -/
def totalPollCycles (its : List IterTrace) : Nat :=
  (its.map (fun it => it.poll)).sum

/-- The compressdev template's `run_benchmark` output line:
`Total cycles: end - start - total_poll_cycles`. -/
def runBenchmarkPolling (its : List IterTrace) : OutputLine :=
  .totalCycles (elapsedCycles its - totalPollCycles its)

/-- Modelled from the spec: the wait-based cryptodev template hosting the
cryptodev polling snippet is not under `src/` (only the snippet and the
non-polling cryptodev template are); per the design document and the project
README it "measures actual crypto work time, excluding polling overhead",
i.e. reports elapsed cycles minus `total_poll_cycles` exactly like the
compressdev and regexdev templates. -/
def runBenchmarkCryptoWait (its : List IterTrace) : OutputLine :=
  .totalCycles (elapsedCycles its - totalPollCycles its)

/-- The integer printed on a `Total cycles:` line (0 for other lines). -/
def reportedTotal : OutputLine → Nat
  | .totalCycles n => n
  | _ => 0

/-! ## ir-perf bench driver (`src/ir-perf/bench-driver.c`)

`main` takes the iteration count from `argv[1]` when present, otherwise
100000000, and calls `bench_loop(N)`. -/

/-- The iteration count `N` selected by `main`:
`argc > 1 ? atol(argv[1]) : 100000000`.  `args` is `argv[1..]`. -/
def benchDriverIterations (args : List String) : Int :=
  match args with
  | [] => 100000000
  | a :: _ => atolModel a

/-- Modelled from the spec: the ir-perf execution controller
(`run_benchmarks.py`, invoked per the README but not under `src/`) reports
one `Total cycles: <N>` line for an arithmetic-category run; the arithmetic
category carries no runtime parameters, so no `metadata:` line is
produced. -/
def arithmeticRunOutput (measuredCycles : Nat) : List OutputLine :=
  [.totalCycles measuredCycles]

/-! ## Template/snippet merge

Modelled from the spec: `generate_bench_ll.py` is invoked by the ir-perf
CMake rules with `(category, template-file, snippet-file, output-file)` but
the script itself is not under `src/`.  Per the design document the merge
replaces the template's single insertion marker verbatim with the snippet
body — a pure text transformation of the `(template, snippet)` pair. -/

/-- The merge, on templates represented as lists of lines with a marker
line. -/
def mergeBench (template : List String) (marker : String)
    (snippet : List String) : List String :=
  template.flatMap (fun line => if line = marker then snippet else [line])

/-! ## Latency model builder

Modelled from the spec: `analyze_latency.py` (described by the project
README but not under `src/`) runs a univariate regression per parameter,
writes every tested parameter's coefficient, intercept, correlation, p-value
and sample count into the full correlation report (`correlations.json`) with
a `significant` flag, and keeps in the compact model
(`function_latency_map.json`) exactly the parameters with `p < 0.05`. -/

/-- Univariate regression output for one parameter. -/
structure RegressionStats where
  coefficient : ℚ
  intercept : ℚ
  correlation : ℚ
  pValue : ℚ
  nSamples : Nat
  deriving DecidableEq

/-- The significance threshold `p < 0.05`. -/
def significanceLevel : ℚ := 1 / 20

/-- The full correlation report for one operation: every tested parameter
with all its statistics and the `significant` flag. -/
def fullCorrelationReport (rs : List (String × RegressionStats)) :
    List (String × RegressionStats × Bool) :=
  rs.map (fun kr => (kr.1, kr.2, decide (kr.2.pValue < significanceLevel)))

/-- The compact model's coefficient set for one operation: only the
parameters with `p < 0.05`, mapped to their coefficients. -/
def compactModelParams (rs : List (String × RegressionStats)) :
    List (String × ℚ) :=
  (rs.filter (fun kr => decide (kr.2.pValue < significanceLevel))).map
    (fun kr => (kr.1, kr.2.coefficient))

/-! ## Auxiliary definitions used by the statements below -/

/-- The bounds the api-perf driver maintains on its globals. -/
def driverBounds (p : DriverParams) : Prop :=
  1 ≤ p.burst ∧ p.burst ≤ 65535 ∧ 1 ≤ p.iterations ∧ 8 ≤ p.payload

/-- The size and truncation invariant of the embedded driver's `g_params`
store. -/
def paramStoreOk (st : EmbeddedState) : Prop :=
  st.params.length ≤ maxParams ∧
    ∀ kv ∈ st.params, kv.1.length ≤ 31 ∧ kv.2.length ≤ 127

/-- Seventeen `--k<j> v` pairs, one more than the store can hold. -/
def seventeenPairArgs : List String :=
  (List.range 17).flatMap (fun j => ["--k" ++ toString j, "v"])

/-- A concrete significant regression result (p = 0.01). -/
def sampleStats : RegressionStats :=
  { coefficient := 5 / 2, intercept := 10, correlation := 9 / 10,
    pValue := 1 / 100, nSamples := 9 }

end PixBench

namespace PixBench

/-! ## Helper lemmas -/

lemma validatedBurst_bounds (r : Nat) :
    1 ≤ validatedBurst r ∧ validatedBurst r ≤ 65535 := by
  unfold validatedBurst
  dsimp only
  split <;> omega

lemma validatedIterations_pos (r : Nat) : 1 ≤ validatedIterations r := by
  unfold validatedIterations
  split <;> omega

lemma validatedPayload_ge (r : Nat) : 8 ≤ validatedPayload r := by
  unfold validatedPayload
  dsimp only
  split <;> omega

lemma scanBenchFlags_bounds :
    ∀ (args : List String) (p : DriverParams),
      driverBounds p → driverBounds (scanBenchFlags args p) := by
  intro args p
  induction args, p using scanBenchFlags.induct with
  | case1 p => intro h; simpa [scanBenchFlags] using h
  | case2 a p => intro h; simpa [scanBenchFlags] using h
  | case3 v rest p ih =>
      intro h
      simp only [scanBenchFlags, reduceIte]
      exact ih ⟨(validatedBurst_bounds _).1, (validatedBurst_bounds _).2,
        h.2.2.1, h.2.2.2⟩
  | case4 v rest p hne ih =>
      intro h
      simp only [scanBenchFlags, reduceIte]
      exact ih ⟨h.1, h.2.1, validatedIterations_pos _, h.2.2.2⟩
  | case5 v rest p hne1 hne2 ih =>
      intro h
      simp only [scanBenchFlags, reduceIte]
      exact ih ⟨h.1, h.2.1, h.2.2.1, validatedPayload_ge _⟩
  | case6 a v rest p hne1 hne2 hne3 ih =>
      intro h
      rw [scanBenchFlags, if_neg hne1, if_neg hne2, if_neg hne3]
      exact ih h

lemma truncTo_length_le (n : Nat) (s : String) : (truncTo n s).length ≤ n := by
  show (s.toList.take n).length ≤ n
  simp [List.length_take]

lemma scanEmbeddedFlags_store_ok :
    ∀ (args : List String) (st : EmbeddedState),
      paramStoreOk st → paramStoreOk (scanEmbeddedFlags args st) := by
  intro args st
  induction args, st using scanEmbeddedFlags.induct with
  | case1 st => intro h; simpa [scanEmbeddedFlags] using h
  | case2 a st => intro h; simpa [scanEmbeddedFlags] using h
  | case3 a v rest st hdd st2 ih =>
      intro h
      rw [scanEmbeddedFlags, if_pos hdd]
      dsimp only
      apply ih
      by_cases hlt : st.params.length < maxParams
      · simp only [st2, if_pos hlt]
        refine ⟨?_, ?_⟩
        · simp only [List.length_append, List.length_singleton]
          omega
        · intro kv hkv
          rcases (by simpa using hkv :
              kv ∈ st.params ∨
                kv = (truncTo 31 (dropDashDash a), truncTo 127 v)) with hmem | rfl
          · exact h.2 kv hmem
          · exact ⟨truncTo_length_le _ _, truncTo_length_le _ _⟩
      · simp only [st2, if_neg hlt]; exact h
  | case4 v rest st hne ih =>
      intro h
      rw [scanEmbeddedFlags, if_neg hne, if_pos rfl]
      exact ih h
  | case5 a v rest st hne1 hne2 ih =>
      intro h
      rw [scanEmbeddedFlags, if_neg hne1, if_neg hne2]
      exact ih h

lemma splitFirstSep_of_append (pre post : List String) (hpre : "--" ∉ pre) :
    splitFirstSep (pre ++ "--" :: post) = some (pre, post) := by
  induction pre with
  | nil => simp [splitFirstSep]
  | cons a rest ih =>
      have ha : a ≠ "--" := fun h => hpre (h ▸ List.mem_cons_self a rest)
      have hih := ih (fun h => hpre (List.mem_cons_of_mem a h))
      simp [splitFirstSep, ha, hih]

lemma getBenchmarkParam_of_no_key (ps : List (String × String)) (k : String)
    (h : ∀ kv ∈ ps, kv.1 ≠ k) : getBenchmarkParam ps k = none := by
  unfold getBenchmarkParam
  rw [List.find?_eq_none.mpr]
  · rfl
  · intro kv hkv
    simpa using h kv hkv

lemma totalPollCycles_le_elapsedCycles (its : List IterTrace) :
    totalPollCycles its ≤ elapsedCycles its := by
  unfold totalPollCycles elapsedCycles
  induction its with
  | nil => simp
  | cons it rest ih =>
      simp only [List.map_cons, List.sum_cons]
      omega

lemma mergeBench_id_of_not_mem (l : List String) (marker : String)
    (snippet : List String) (h : marker ∉ l) :
    mergeBench l marker snippet = l := by
  induction l with
  | nil => rfl
  | cons a rest ih =>
      have ha : a ≠ marker := fun hh => h (hh ▸ List.mem_cons_self a rest)
      simp only [mergeBench, List.flatMap_cons, if_neg ha]
      simpa [mergeBench] using ih (fun hh => h (List.mem_cons_of_mem a hh))

lemma mergeBench_single_marker (pre post snippet : List String) (marker : String)
    (hpre : marker ∉ pre) (hpost : marker ∉ post) :
    mergeBench (pre ++ marker :: post) marker snippet = pre ++ snippet ++ post := by
  induction pre with
  | nil =>
      have hpp : mergeBench post marker snippet = post :=
        mergeBench_id_of_not_mem _ _ _ hpost
      simp only [mergeBench] at hpp
      simp [mergeBench, hpp]
  | cons a rest ih =>
      have ha : a ≠ marker := fun hh => hpre (hh ▸ List.mem_cons_self a rest)
      simp only [List.cons_append, mergeBench, List.flatMap_cons, if_neg ha]
      have := ih (fun hh => hpre (List.mem_cons_of_mem a hh))
      simp only [mergeBench] at this
      simp [this]

lemma cryptoWaitRun_ok (enq : Nat) (att : List (Nat × Nat)) (t pc : Nat)
    (h : cryptoWaitRun enq att = some (.ok t pc)) : t = enq := by
  unfold cryptoWaitRun at h
  cases hl : cryptoWaitLoop enq att 0 0 0 with
  | none => rw [hl] at h; simp at h
  | some tp =>
      rw [hl] at h
      rw [Option.map_some'] at h
      by_cases he : enq = tp.1
      · rw [if_pos he] at h
        cases h
        omega
      · rw [if_neg he] at h
        cases h

lemma cryptoWaitRun_fatal (enq : Nat) (att : List (Nat × Nat)) (a b : Nat)
    (h : cryptoWaitRun enq att = some (.fatalMismatch a b)) : a ≠ b := by
  unfold cryptoWaitRun at h
  cases hl : cryptoWaitLoop enq att 0 0 0 with
  | none => rw [hl] at h; simp at h
  | some tp =>
      rw [hl] at h
      rw [Option.map_some'] at h
      by_cases he : enq = tp.1
      · rw [if_pos he] at h; cases h
      · rw [if_neg he] at h
        cases h
        omega

lemma compressPollRun_ok (enq : Nat) (att : List (Nat × Nat)) (t pc : Nat)
    (h : compressPollRun enq att = some (.ok t pc)) : t = enq := by
  unfold compressPollRun at h
  cases hl : compressPollLoop enq att 0 0 with
  | none => rw [hl] at h; simp at h
  | some tp =>
      rw [hl] at h
      rw [Option.map_some'] at h
      by_cases he : enq = tp.1
      · rw [if_pos he] at h; cases h; omega
      · rw [if_neg he] at h; cases h

lemma compressPollRun_fatal (enq : Nat) (att : List (Nat × Nat)) (a b : Nat)
    (h : compressPollRun enq att = some (.fatalMismatch a b)) : a ≠ b := by
  unfold compressPollRun at h
  cases hl : compressPollLoop enq att 0 0 with
  | none => rw [hl] at h; simp at h
  | some tp =>
      rw [hl] at h
      rw [Option.map_some'] at h
      by_cases he : enq = tp.1
      · rw [if_pos he] at h; cases h
      · rw [if_neg he] at h; cases h; omega

/-! ## Claim theorems -/

/-- C1.  The claim says only zero-completion polling attempts contribute
their cycles to `total_poll_cycles` while the first successful attempt's
cycles are retained as compute cost.  Evaluating the code at the failing
input — burst of 32, one zero-completion attempt of 100 cycles followed by a
successful attempt of 500 cycles — shows the cryptodev wait snippet reports
`poll_cycles = 100` (the zero-completion cycles only, as claimed), but the
compressdev decompress snippet reports `poll_cycles = 600`: it reads
`poll_end` after the loop, so the successful attempt's 500 cycles also land
in `total_poll_cycles`, contradicting the claim and the snippet's own
comments. -/
theorem c1_poll_attribution_eval :
    cryptoWaitRun 32 [(100, 0), (500, 32)] = some (.ok 32 100) ∧
    zeroAttemptCycles [(100, 0), (500, 32)] = 100 ∧
    compressPollRun 32 [(100, 0), (500, 32)] = some (.ok 32 600) ∧
    (600 : Nat) ≠ zeroAttemptCycles [(100, 0), (500, 32)] := by
  refine ⟨by decide, by decide, by decide, by decide⟩

/-- C2.  For every polling-based measurement run, the integer printed on the
`Total cycles:` line is the loop's elapsed cycle count minus
`total_poll_cycles`; the subtraction is exact (poll cycles never exceed the
elapsed count, so reported + poll = elapsed); the wait-based cryptodev
template reports the same quantity; and `total_poll_cycles` is
non-negative. -/
theorem c2_total_cycles_excludes_poll (its : List IterTrace) :
    runBenchmarkPolling its =
      .totalCycles (elapsedCycles its - totalPollCycles its) ∧
    reportedTotal (runBenchmarkPolling its) + totalPollCycles its =
      elapsedCycles its ∧
    reportedTotal (runBenchmarkCryptoWait its) + totalPollCycles its =
      elapsedCycles its ∧
    0 ≤ totalPollCycles its := by
  refine ⟨rfl, ?_, ?_, Nat.zero_le _⟩ <;>
    exact Nat.sub_add_cancel (totalPollCycles_le_elapsedCycles its)

/-- C3 counterexample.  The plain
`rte_cryptodev_enqueue_dequeue_burst_encrypt` call snippet discards both
burst return values: in a run where the device accepts 32 operations and
returns 0 completions, submitted (32) differs from completed (0) yet the
snippet raises no error at all — refuting the claim that every asynchronous
benchmark turns a mismatch into a fatal reported error. -/
theorem c3_counterexample :
    (encryptBurstCall [] 32 0).enqueued = 32 ∧
    (encryptBurstCall [] 32 0).dequeued = 0 ∧
    (encryptBurstCall [] 32 0).enqueued ≠ (encryptBurstCall [] 32 0).dequeued ∧
    (encryptBurstCall [] 32 0).fatalEvents = [] := by
  refine ⟨by decide, by decide, by decide, rfl⟩

/-- C3 amended.  The polling-loop benchmarks (the cryptodev wait variant and
the compressdev burst variants) validate `enqueued == total_dequeued` after
the poll loop and raise a fatal error exactly on a mismatch: a completed run
reports all submitted work completed, and every fatal mismatch they raise is
a genuine mismatch.  The plain cryptodev `enqueue_dequeue_burst` snippets
ignore the burst return counts and never raise an error. -/
theorem c3_amended_mismatch_validation :
    (∀ enq att t pc, cryptoWaitRun enq att = some (.ok t pc) → t = enq) ∧
    (∀ enq att a b, cryptoWaitRun enq att = some (.fatalMismatch a b) → a ≠ b) ∧
    (∀ enq att t pc, compressPollRun enq att = some (.ok t pc) → t = enq) ∧
    (∀ enq att a b, compressPollRun enq att = some (.fatalMismatch a b) → a ≠ b) ∧
    (∀ ps hwE hwD, (encryptBurstCall ps hwE hwD).fatalEvents = []) :=
  ⟨cryptoWaitRun_ok, cryptoWaitRun_fatal, compressPollRun_ok,
    compressPollRun_fatal, fun _ _ _ => rfl⟩

theorem c3_amended_mismatch_validation_witness :
    cryptoWaitRun 2 [(5, 2)] = some (.ok 2 0) ∧ (2 : Nat) = 2 :=
  ⟨by decide, c3_amended_mismatch_validation.1 2 [(5, 2)] 2 0 (by decide)⟩

/-- C4 counterexample.  In the embedded ir-perf driver, arguments after the
`--` delimiter are NOT passed to EAL: on the command line
`bench_exe -- -i 5`, EAL receives only `["bench_exe"]` while `-i 5` is
consumed as a benchmark argument (iterations become 5) — refuting the claim
for this driver, whose convention is the reverse of the api-perf one. -/
theorem c4_counterexample :
    parseEmbeddedArgs "bench_exe" ["--", "-i", "5"] =
      ({ params := [], iterations := 5 }, ["bench_exe"]) ∧
    (["bench_exe"] : List String) ≠ ["-i", "5"] := by
  refine ⟨by decide, by decide⟩

/-- C4 amended.  For a command line containing a `--` delimiter: the
api-perf benchmark driver scans exactly the arguments before the first `--`
for benchmark flags and passes exactly the arguments after it, unmodified,
to EAL initialization; the embedded ir-perf driver uses the reverse
convention — EAL receives `argv[0]` plus the arguments before the first
`--`, and the arguments after it are scanned as benchmark arguments. -/
theorem c4_amended_delimiter_split (argv0 : String) (pre post : List String)
    (hpre : "--" ∉ pre) :
    parseCommandLineArgs argv0 (pre ++ "--" :: post) =
      (scanBenchFlags pre initialDriverParams, post) ∧
    parseEmbeddedArgs argv0 (pre ++ "--" :: post) =
      (scanEmbeddedFlags post initialEmbeddedState, argv0 :: pre) := by
  constructor
  · unfold parseCommandLineArgs
    rw [splitFirstSep_of_append pre post hpre]
  · unfold parseEmbeddedArgs
    rw [splitFirstSep_of_append pre post hpre]

theorem c4_amended_delimiter_split_witness :
    ("--" ∉ (["-b", "8"] : List String)) ∧
    (parseCommandLineArgs "exe" (["-b", "8"] ++ "--" :: ["-l", "1"]) =
        (scanBenchFlags ["-b", "8"] initialDriverParams, ["-l", "1"]) ∧
      parseEmbeddedArgs "exe" (["-b", "8"] ++ "--" :: ["-l", "1"]) =
        (scanEmbeddedFlags ["-l", "1"] initialEmbeddedState, "exe" :: ["-b", "8"])) :=
  ⟨by decide, c4_amended_delimiter_split "exe" ["-b", "8"] ["-l", "1"] (by decide)⟩

/-- C5.  The claim says absence of a parameter never crashes a benchmark.
Evaluating the code at the failing input — the `alloc_bulk` setup snippet
run with an empty benchmark-argument list — `get_benchmark_param`
returns `NULL` and the snippet passes it straight to `strtoul`, a `NULL`
dereference (modelled `none`), instead of substituting a default the way the
guarded snippets do (the encrypt call snippet falls back to 32). -/
theorem c5_alloc_bulk_missing_param_eval :
    getBenchmarkParam [] "burst_size" = none ∧
    allocBulkBurstSize [] = none ∧
    encryptBurstSize [] = 32 := by
  refine ⟨rfl, rfl, rfl⟩

/-- C6.  With no command-line argument the ir-perf bench driver runs
100000000 iterations, and an arithmetic-category run's output (whose
measured cycle count is positive) contains exactly one `Total cycles: <N>`
line with `N > 0` and no `metadata:` line. -/
theorem c6_add_imm_default_run (n : Nat) (hn : 0 < n) :
    benchDriverIterations [] = 100000000 ∧
    ((arithmeticRunOutput n).filter isTotalCyclesLine).length = 1 ∧
    (∀ m, OutputLine.totalCycles m ∈ arithmeticRunOutput n → 0 < m) ∧
    (arithmeticRunOutput n).filter isMetadataLine = [] := by
  refine ⟨rfl, rfl, ?_, rfl⟩
  intro m hm
  have : m = n := by
    simpa [arithmeticRunOutput] using hm
  simpa [this] using hn

theorem c6_add_imm_default_run_witness :
    0 < 12345 ∧
    (benchDriverIterations [] = 100000000 ∧
      ((arithmeticRunOutput 12345).filter isTotalCyclesLine).length = 1 ∧
      (∀ m, OutputLine.totalCycles m ∈ arithmeticRunOutput 12345 → 0 < m) ∧
      (arithmeticRunOutput 12345).filter isMetadataLine = []) :=
  ⟨by decide, c6_add_imm_default_run 12345 (by decide)⟩

/-- C7.  A parameter appears in the compact model's coefficient set iff the
full correlation report for the same operation holds an entry for it with
p-value below 0.05; and every tested parameter appears in the full report
with all of its statistics (coefficient, intercept, correlation, p-value,
sample count) and its significance flag. -/
theorem c7_significance_threshold (rs : List (String × RegressionStats))
    (k : String) :
    ((∃ c, (k, c) ∈ compactModelParams rs) ↔
      ∃ s b, (k, (s, b)) ∈ fullCorrelationReport rs ∧
        s.pValue < significanceLevel) ∧
    (∀ s, (k, s) ∈ rs →
      (k, (s, decide (s.pValue < significanceLevel))) ∈
        fullCorrelationReport rs) := by
  constructor
  · unfold compactModelParams fullCorrelationReport
    constructor
    · rintro ⟨c, hc⟩
      rcases List.mem_map.mp hc with ⟨kr, hkr, heq⟩
      rcases List.mem_filter.mp hkr with ⟨hmem, hsig⟩
      have hk : kr.1 = k := by cases heq; rfl
      refine ⟨kr.2, decide (kr.2.pValue < significanceLevel), ?_,
        of_decide_eq_true hsig⟩
      exact List.mem_map.mpr ⟨kr, hmem, by rw [hk]⟩
    · rintro ⟨s, b, hmem, hp⟩
      rcases List.mem_map.mp hmem with ⟨kr, hkr, heq⟩
      have h1 : kr.1 = k := by cases heq; rfl
      have h2 : kr.2 = s := by cases heq; rfl
      refine ⟨kr.2.coefficient, ?_⟩
      apply List.mem_map.mpr
      refine ⟨kr, ?_, by rw [h1]⟩
      apply List.mem_filter.mpr
      exact ⟨hkr, decide_eq_true (by rw [h2]; exact hp)⟩
  · intro s h
    exact List.mem_map.mpr ⟨(k, s), h, rfl⟩

theorem c7_significance_threshold_witness :
    ("burst", sampleStats) ∈ [("burst", sampleStats)] ∧
    ("burst", (sampleStats, decide (sampleStats.pValue < significanceLevel))) ∈
      fullCorrelationReport [("burst", sampleStats)] :=
  ⟨List.mem_singleton.mpr rfl,
    (c7_significance_threshold [("burst", sampleStats)] "burst").2 sampleStats
      (List.mem_singleton.mpr rfl)⟩

/-- C8.  The template/snippet merge is a pure, deterministic text
transformation: its output is a function of the `(template, snippet)` pair
alone, so merging the same pair twice yields byte-identical artifacts; and
on a template with a single insertion marker the output is exactly the
template text with the marker replaced verbatim by the snippet body. -/
theorem c8_merge_reproducible :
    (∀ (t t2 snippet s2 : List String) (m m2 : String),
      t = t2 → m = m2 → snippet = s2 →
        mergeBench t m snippet = mergeBench t2 m2 s2) ∧
    (∀ (pre post snippet : List String) (marker : String),
      marker ∉ pre → marker ∉ post →
        mergeBench (pre ++ marker :: post) marker snippet =
          pre ++ snippet ++ post) := by
  constructor
  · rintro t t2 snippet s2 m m2 rfl rfl rfl
    rfl
  · intro pre post snippet marker hpre hpost
    exact mergeBench_single_marker pre post snippet marker hpre hpost

theorem c8_merge_reproducible_witness :
    ("M" ∉ (["a"] : List String)) ∧ ("M" ∉ (["b"] : List String)) ∧
    mergeBench (["a"] ++ "M" :: ["b"]) "M" ["x", "y"] =
      ["a"] ++ ["x", "y"] ++ ["b"] :=
  ⟨by decide, by decide,
    c8_merge_reproducible.2 ["a"] ["b"] ["x", "y"] "M" (by decide) (by decide)⟩

/-- C9.  After command-line parsing in the api-perf benchmark driver, for
every argument vector the driver globals satisfy
`1 ≤ g_burst_size ≤ 65535`, `g_iterations ≥ 1` and `g_payload_size ≥ 8`;
and out-of-range `-b` / `-i` / `-p` values (including 0) are silently
replaced by the defaults 32, 1000000 and 64. -/
theorem c9_driver_param_bounds :
    (∀ (argv0 : String) (args : List String),
      driverBounds (parseCommandLineArgs argv0 args).1) ∧
    parseCommandLineArgs "exe" ["-b", "0", "-i", "0", "-p", "7"] =
      ({ burst := 32, iterations := 1000000, payload := 64 },
        ["exe", "-b", "0", "-i", "0", "-p", "7"]) ∧
    parseCommandLineArgs "exe" ["-b", "70000", "--", "-l", "1"] =
      ({ burst := 32, iterations := 1000000, payload := 64 }, ["-l", "1"]) := by
  refine ⟨?_, by decide, by decide⟩
  intro argv0 args
  unfold parseCommandLineArgs
  have hinit : driverBounds initialDriverParams := by
    refine ⟨?_, ?_, ?_, ?_⟩ <;> decide
  cases h : splitFirstSep args with
  | none => exact scanBenchFlags_bounds args initialDriverParams hinit
  | some pq => exact scanBenchFlags_bounds pq.1 initialDriverParams hinit

/-- C10.  The embedded driver's parameter store never holds more than 16
pairs, every stored key is at most 31 characters and every stored value at
most 127; with seventeen `--key value` pairs supplied the seventeenth is
silently discarded (`get_benchmark_param` returns `NULL` for its key while
the first is retrievable and exactly 16 pairs are stored); and
`get_benchmark_param` returns `NULL` for any key never stored. -/
theorem c10_param_store_limits :
    (∀ (argv0 : String) (args : List String),
      (parseEmbeddedArgs argv0 args).1.params.length ≤ maxParams) ∧
    (∀ (argv0 : String) (args : List String) kv,
      kv ∈ (parseEmbeddedArgs argv0 args).1.params →
        kv.1.length ≤ 31 ∧ kv.2.length ≤ 127) ∧
    getBenchmarkParam
      (parseEmbeddedArgs "exe" ("--" :: seventeenPairArgs)).1.params "k16" =
        none ∧
    getBenchmarkParam
      (parseEmbeddedArgs "exe" ("--" :: seventeenPairArgs)).1.params "k0" =
        some "v" ∧
    (parseEmbeddedArgs "exe" ("--" :: seventeenPairArgs)).1.params.length = 16 ∧
    (∀ (ps : List (String × String)) (k : String),
      (∀ kv ∈ ps, kv.1 ≠ k) → getBenchmarkParam ps k = none) := by
  have hstore : ∀ (argv0 : String) (args : List String),
      paramStoreOk (parseEmbeddedArgs argv0 args).1 := by
    intro argv0 args
    unfold parseEmbeddedArgs
    have hinit : paramStoreOk initialEmbeddedState := by
      refine ⟨by decide, ?_⟩
      intro kv hkv
      simp [initialEmbeddedState] at hkv
    cases h : splitFirstSep args with
    | none => exact hinit
    | some pq => exact scanEmbeddedFlags_store_ok pq.2 initialEmbeddedState hinit
  refine ⟨fun argv0 args => (hstore argv0 args).1,
    fun argv0 args kv hkv => (hstore argv0 args).2 kv hkv,
    by decide, by decide, by decide, getBenchmarkParam_of_no_key⟩

theorem c10_param_store_limits_witness :
    (∀ kv ∈ ([("a", "b")] : List (String × String)), kv.1 ≠ "z") ∧
    getBenchmarkParam [("a", "b")] "z" = none :=
  ⟨by decide, c10_param_store_limits.2.2.2.2.2 [("a", "b")] "z" (by decide)⟩

end PixBench
